import Mathlib

/-!
Shallow embedding of the CP-voting backend service (api/index.js): an Express
application over MongoDB with five routes (health check, list CPs, create CP
with an uploaded image, vote for a CP, fetch one CP).  Database effects are
modelled by explicit state passing over a state holding the two collections
(cps and vote logs); timestamps (new Date()) are explicit Nat parameters in
milliseconds; the outcome of each route is an inductive capturing the JSON
response branch actually taken, with a companion function giving its HTTP
status code.
-/

namespace CPVote

/-- An uploaded file as multer memory storage presents it to the handler:
a MIME type string and the raw byte buffer (bytes as Nat < 256). -/
structure UploadedFile where
  mimetype : String
  buffer : List Nat
deriving Repr, DecidableEq

/-- A document of the cps collection.  The id field models the Mongo _id
assigned at insertion; votes is an integer counter; createdAt and updatedAt
are millisecond timestamps. -/
structure Item where
  id : String
  name : String
  description : String
  imageUrl : String
  votes : Int
  createdAt : Nat
  updatedAt : Nat
deriving Repr, DecidableEq

/-- A document of the vote_logs collection: which CP, which client IP, when. -/
structure VoteLog where
  cpId : String
  voterIp : String
  votedAt : Nat
deriving Repr, DecidableEq

/-- The database state: the two collections, plus the counter from which the
next generated ObjectId is derived. -/
structure DBState where
  cps : List Item
  voteLogs : List VoteLog
  nextId : Nat
deriving Repr, DecidableEq

/-- A hexadecimal digit character, as accepted by ObjectId.isValid. -/
def isHexChar (c : Char) : Bool :=
  c.isDigit || (97 ≤ c.toNat && c.toNat ≤ 102) || (65 ≤ c.toNat && c.toNat ≤ 70)

/-- ObjectId.isValid on a string argument: a 12-byte string or a 24-character
hexadecimal string. -/
def isValidObjectId (s : String) : Bool :=
  s.length == 12 || (s.length == 24 && s.toList.all isHexChar)

/-- JavaScript String.prototype.trim: drop whitespace from both ends.
Structural on the character list so that concrete instances evaluate. -/
def jsTrim (s : String) : String :=
  String.mk (((s.data.dropWhile Char.isWhitespace).reverse.dropWhile
    Char.isWhitespace).reverse)

/-- JavaScript String.prototype.startsWith: the second string is a prefix of
the first.  Structural on the character lists. -/
def strStartsWith (s p : String) : Bool :=
  p.data.isPrefixOf s.data

/-- Lower-case hexadecimal digit for a value below 16. -/
def hexDigitChar (n : Nat) : Char :=
  if n < 10 then Char.ofNat (48 + n) else Char.ofNat (97 + (n - 10))

/-- The k low-order hexadecimal digits of n, most significant first. -/
def toHexDigits : Nat → Nat → List Char
  | 0, _ => []
  | k + 1, n => toHexDigits k (n / 16) ++ [hexDigitChar (n % 16)]

/-- The ObjectId generated for the n-th insertion: a 24-character hex string.
Models the driver generating a fresh _id for insertOne. -/
def genObjectId (n : Nat) : String :=
  String.mk (toHexDigits 24 n)

/-- One day in milliseconds. -/
def msPerDay : Nat := 86400000

/-- The calendar day a timestamp falls in. -/
def dayIndex (t : Nat) : Nat := t / msPerDay

/-- setHours(0,0,0,0): the midnight preceding the given moment. -/
def startOfDay (t : Nat) : Nat := dayIndex t * msPerDay

/-- The base64 alphabet. -/
def b64Alphabet : List Char :=
  ['A','B','C','D','E','F','G','H','I','J','K','L','M','N','O','P','Q','R',
   'S','T','U','V','W','X','Y','Z','a','b','c','d','e','f','g','h','i','j',
   'k','l','m','n','o','p','q','r','s','t','u','v','w','x','y','z','0','1',
   '2','3','4','5','6','7','8','9','+','/']

/-- The base64 character for a 6-bit value. -/
def b64Char (n : Nat) : Char := b64Alphabet.getD n 'A'

/-- Standard base64 of a byte list, three bytes at a time with = padding
(Buffer.prototype.toString with base64 encoding). -/
def base64Chunks : List Nat → List Char
  | a :: b :: c :: rest =>
      b64Char (a / 4) :: b64Char (a % 4 * 16 + b / 16) ::
        b64Char (b % 16 * 4 + c / 64) :: b64Char (c % 64) :: base64Chunks rest
  | [a, b] => [b64Char (a / 4), b64Char (a % 4 * 16 + b / 16), b64Char (b % 16 * 4), '=']
  | [a] => [b64Char (a / 4), b64Char (a % 4 * 16), '=', '=']
  | [] => []

/-- Base64 encoding of a byte buffer as a string. -/
def base64Encode (bytes : List Nat) : String :=
  String.mk (base64Chunks bytes)

/-- connectToDatabase over the process-wide variable db: if a handle is
cached, return it unchanged; otherwise attempt a fresh connection, cache it
on success, propagate the error on failure.  The handle is abstracted to a
Nat; the outcome of the fresh connection attempt is an explicit argument. -/
def connectToDatabase (db : Option Nat) (freshConnect : Except Unit Nat) :
    Except Unit (Nat × Option Nat) :=
  match db with
  | some d => .ok (d, some d)
  | none =>
    match freshConnect with
    | .ok d => .ok (d, some d)
    | .error e => .error e

/-- Response branches of GET /api/health. -/
inductive HealthOutcome where
  | okConnected
  | errorDisconnected
deriving Repr, DecidableEq

/-- HTTP status of each health response. -/
def healthStatus : HealthOutcome → Nat
  | .okConnected => 200
  | .errorDisconnected => 500

/-- GET /api/health: ping the database; 200 connected on success, 500
disconnected when the connection (or ping) fails. -/
def healthHandler (conn : Except Unit DBState) : HealthOutcome :=
  match conn with
  | .ok _ => .okConnected
  | .error _ => .errorDisconnected

/-- Response branches of GET /api/cps. -/
inductive ListOutcome where
  | ok (cps : List Item)
  | serverError
deriving Repr, DecidableEq

/-- HTTP status of each list response. -/
def listStatus : ListOutcome → Nat
  | .ok _ => 200
  | .serverError => 500

/-- The sort comparator selected by the switch on the sort query parameter:
newest compares createdAt descending, name compares name ascending, votes and
every other value compare votes descending. -/
def sortLE (sort : String) : Item → Item → Bool :=
  if sort == "newest" then fun a b => decide (b.createdAt ≤ a.createdAt)
  else if sort == "name" then fun a b => decide (a.name ≤ b.name)
  else fun a b => decide (b.votes ≤ a.votes)

/-- GET /api/cps: the sort parameter defaults to votes; the whole collection
is returned sorted, never paginated; any error yields a 500 response. -/
def listHandler (sortQ : Option String) (conn : Except Unit DBState) : ListOutcome :=
  match conn with
  | .error _ => .serverError
  | .ok st => .ok (st.cps.mergeSort (sortLE (sortQ.getD "votes")))

/-- Response branches of POST /api/cps, including the two rejections raised
inside the multer middleware.  Both middleware errors skip the route handler
(so its catch block, which would map a message containing 图片文件 to 400,
never sees them) and land in the error-handling middleware: an oversize file
is a MulterError with code LIMIT_FILE_SIZE and gets 400, while the fileFilter
rejection is a plain Error and falls through to the generic 500 response. -/
inductive CreateOutcome where
  | fileTypeRejected
  | fileTooLarge
  | nameRequired
  | imageRequired
  | serverError
  | created (cp : Item)
deriving Repr, DecidableEq

/-- HTTP status of each create response.  fileTypeRejected is 500, not 400:
the plain Error from fileFilter reaches the error-handling middleware, which
answers 400 only for MulterError LIMIT_FILE_SIZE and 500 for everything
else. -/
def createStatus : CreateOutcome → Nat
  | .fileTypeRejected => 500
  | .fileTooLarge => 400
  | .nameRequired => 400
  | .imageRequired => 400
  | .serverError => 500
  | .created _ => 201

/-- The stored description: the JavaScript expression
(description or-else placeholder).trim(), where the placeholder is taken for
an absent field and for the empty string (the only falsy strings), and
trimming happens after the substitution. -/
def descriptionValue (description : Option String) : String :=
  jsTrim (match description with
   | none => "暂无描述"
   | some s => if s == "" then "暂无描述" else s)

/-- The new document built by the create handler: trimmed name, description
with the placeholder default, the image as a data URI, zero votes, both
timestamps now, and the _id generated at insertion. -/
def newCP (s : String) (description : Option String) (f : UploadedFile)
    (st : DBState) (now : Nat) : Item :=
  { id := genObjectId st.nextId
    name := jsTrim s
    description := descriptionValue description
    imageUrl := "data:" ++ f.mimetype ++ ";base64," ++ base64Encode f.buffer
    votes := 0
    createdAt := now
    updatedAt := now }

/-- The route handler body of POST /api/cps, after multer has run: validate
name, validate the file presence, build the data URI and the new document,
then connect and insert (a connection failure is caught as a 500). -/
def createBody (name description : Option String) (file : Option UploadedFile)
    (conn : Except Unit DBState) (now : Nat) : CreateOutcome × Except Unit DBState :=
  match name with
  | none => (.nameRequired, conn)
  | some s =>
    if s == "" || jsTrim s == "" then (.nameRequired, conn)
    else
      match file with
      | none => (.imageRequired, conn)
      | some f =>
        match conn with
        | .error e => (.serverError, .error e)
        | .ok st =>
          (.created (newCP s description f st now),
           .ok { st with cps := st.cps ++ [newCP s description f st now], nextId := st.nextId + 1 })

/-- POST /api/cps as a whole: the multer middleware first rejects a file
whose MIME type does not start with image/ (fileFilter), then one whose
buffer exceeds 5 * 1024 * 1024 bytes (the fileSize limit); only then does the
route handler body run. -/
def createHandler (name description : Option String) (file : Option UploadedFile)
    (conn : Except Unit DBState) (now : Nat) : CreateOutcome × Except Unit DBState :=
  match file with
  | some f =>
    if strStartsWith f.mimetype "image/" = false then (.fileTypeRejected, conn)
    else if 5 * 1024 * 1024 < f.buffer.length then (.fileTooLarge, conn)
    else createBody name description (some f) conn now
  | none => createBody name description none conn now

/-- Response branches of POST /api/cps/:id/vote. -/
inductive VoteOutcome where
  | invalidIdFormat
  | alreadyVoted
  | cpNotFound
  | serverError
  | success (newVoteCount : Int)
deriving Repr, DecidableEq

/-- HTTP status of each vote response. -/
def voteStatus : VoteOutcome → Nat
  | .invalidIdFormat => 400
  | .alreadyVoted => 400
  | .cpNotFound => 404
  | .serverError => 500
  | .success _ => 200

/-- The findOne filter on vote_logs: same CP, same IP, votedAt at or after
the start of the current day. -/
def voteLogMatches (cpId ip : String) (todayStart : Nat) (l : VoteLog) : Bool :=
  l.cpId == cpId && l.voterIp == ip && decide (todayStart ≤ l.votedAt)

/-- updateOne with an inc of votes and a set of updatedAt: update the first
document matching the id and report the matched count (0 or 1). -/
def incVoteFirst : List Item → String → Nat → List Item × Nat
  | [], _, _ => ([], 0)
  | cp :: rest, cpId, now =>
    if cp.id == cpId then
      ({ cp with votes := cp.votes + 1, updatedAt := now } :: rest, 1)
    else
      let r := incVoteFirst rest cpId now
      (cp :: r.1, r.2)

/-- POST /api/cps/:id/vote: validate the id format (before any database
access), connect, reject a duplicate vote for today, update the first
matching CP (404 when none matches), append the vote log, and read back the
updated document to report its vote count.  A missing document after a
matched update would throw reading votes of null and be caught as a 500. -/
def voteHandler (cpId voterIp : String) (conn : Except Unit DBState) (now : Nat) :
    VoteOutcome × Except Unit DBState :=
  if isValidObjectId cpId = false then (.invalidIdFormat, conn)
  else
    match conn with
    | .error e => (.serverError, .error e)
    | .ok st =>
      match st.voteLogs.find? (voteLogMatches cpId voterIp (startOfDay now)) with
      | some _ => (.alreadyVoted, .ok st)
      | none =>
        if (incVoteFirst st.cps cpId now).2 == 0 then
          (.cpNotFound, .ok { st with cps := (incVoteFirst st.cps cpId now).1 })
        else
          match (incVoteFirst st.cps cpId now).1.find? (fun cp => cp.id == cpId) with
          | some cp =>
            (.success cp.votes,
             .ok { st with
                   cps := (incVoteFirst st.cps cpId now).1
                   voteLogs := st.voteLogs ++
                     [{ cpId := cpId, voterIp := voterIp, votedAt := now }] })
          | none =>
            (.serverError,
             .ok { st with
                   cps := (incVoteFirst st.cps cpId now).1
                   voteLogs := st.voteLogs ++
                     [{ cpId := cpId, voterIp := voterIp, votedAt := now }] })

/-- Response branches of GET /api/cps/:id. -/
inductive GetOutcome where
  | invalidIdFormat
  | cpNotFound
  | found (cp : Item)
  | serverError
deriving Repr, DecidableEq

/-- HTTP status of each single-CP response. -/
def getStatus : GetOutcome → Nat
  | .invalidIdFormat => 400
  | .cpNotFound => 404
  | .found _ => 200
  | .serverError => 500

/-- GET /api/cps/:id: validate the id format, connect, findOne. -/
def getHandler (cpId : String) (conn : Except Unit DBState) : GetOutcome :=
  if isValidObjectId cpId = false then .invalidIdFormat
  else
    match conn with
    | .error _ => .serverError
    | .ok st =>
      match st.cps.find? (fun cp => cp.id == cpId) with
      | some cp => .found cp
      | none => .cpNotFound

/-- One incoming request, abstracting over its payload. -/
inductive Op where
  | health
  | listCps (sortQ : Option String)
  | create (name description : Option String) (file : Option UploadedFile)
  | vote (cpId voterIp : String)
  | getCp (cpId : String)
deriving Repr, DecidableEq

/-- The database state after handling one request: only create and vote
write; health, list and get are read-only. -/
def applyOp (op : Op) (conn : Except Unit DBState) (now : Nat) : Except Unit DBState :=
  match op with
  | .health => conn
  | .listCps _ => conn
  | .create name description file => (createHandler name description file conn now).2
  | .vote cpId voterIp => (voteHandler cpId voterIp conn now).2
  | .getCp _ => conn

/-! Helper lemmas. -/

theorem toHexDigits_length (k : Nat) : ∀ n, (toHexDigits k n).length = k := by
  induction k with
  | zero => intro n; rfl
  | succ k ih => intro n; simp [toHexDigits, ih]

theorem genObjectId_length (n : Nat) : (genObjectId n).length = 24 := by
  unfold genObjectId
  rw [show (String.mk (toHexDigits 24 n)).length = (toHexDigits 24 n).length from rfl]
  exact toHexDigits_length 24 n

theorem genObjectId_ne_empty (n : Nat) : genObjectId n ≠ "" := by
  intro h
  have := genObjectId_length n
  rw [h] at this
  exact absurd this (by decide)

theorem startOfDay_le (t : Nat) : startOfDay t ≤ t := by
  unfold startOfDay dayIndex
  exact Nat.div_mul_le_self t msPerDay

theorem startOfDay_eq_of_dayIndex_eq {t u : Nat} (h : dayIndex u = dayIndex t) :
    startOfDay u = startOfDay t := by
  unfold startOfDay
  rw [h]

theorem lt_startOfDay_of_dayIndex_succ {t u : Nat} (h : dayIndex u = dayIndex t + 1) :
    t < startOfDay u := by
  unfold startOfDay dayIndex msPerDay at *
  omega

theorem voteLogMatches_eq_true_iff (cpId ip : String) (t : Nat) (l : VoteLog) :
    voteLogMatches cpId ip t l = true ↔ (l.cpId = cpId ∧ l.voterIp = ip ∧ t ≤ l.votedAt) := by
  simp [voteLogMatches, and_assoc]

theorem find?_append_of_left_none {α : Type} (p : α → Bool) {l₁ l₂ : List α}
    (h : l₁.find? p = none) : (l₁ ++ l₂).find? p = l₂.find? p := by
  rw [List.find?_append, h, Option.none_or]

theorem incVoteFirst_of_not_mem (cps : List Item) (cpId : String) (now : Nat)
    (h : ∀ cp ∈ cps, cp.id ≠ cpId) :
    incVoteFirst cps cpId now = (cps, 0) := by
  induction cps with
  | nil => rfl
  | cons a rest ih =>
    have h1 : a.id ≠ cpId := h a (List.mem_cons_self a rest)
    have h2 := ih (fun x hx => h x (List.mem_cons_of_mem a hx))
    simp [incVoteFirst, h1, h2]

theorem incVoteFirst_of_mem (cps : List Item) (cpId : String) (now : Nat)
    (h : ∃ cp ∈ cps, cp.id = cpId) :
    ∃ pre cp post,
      cps = pre ++ cp :: post ∧ (∀ x ∈ pre, x.id ≠ cpId) ∧ cp.id = cpId ∧
      incVoteFirst cps cpId now =
        (pre ++ { cp with votes := cp.votes + 1, updatedAt := now } :: post, 1) := by
  induction cps with
  | nil => simp at h
  | cons a rest ih =>
    by_cases ha : a.id = cpId
    · exact ⟨[], a, rest, by simp, by simp, ha, by simp [incVoteFirst, ha]⟩
    · have h2 : ∃ cp ∈ rest, cp.id = cpId := by
        rcases h with ⟨cp, hm, hcp⟩
        rcases List.mem_cons.mp hm with rfl | hm2
        · exact absurd hcp ha
        · exact ⟨cp, hm2, hcp⟩
      rcases ih h2 with ⟨pre, cp, post, heq, hpre, hcp, hrun⟩
      refine ⟨a :: pre, cp, post, by simp [heq], ?_, hcp, ?_⟩
      · intro x hx
        rcases List.mem_cons.mp hx with rfl | hx2
        · exact ha
        · exact hpre x hx2
      · simp [incVoteFirst, ha, hrun]

theorem incVoteFirst_mem (cps : List Item) (cpId : String) (now : Nat) (x : Item)
    (hx : x ∈ (incVoteFirst cps cpId now).1) :
    x ∈ cps ∨ ∃ cp ∈ cps, x = { cp with votes := cp.votes + 1, updatedAt := now } := by
  induction cps with
  | nil => simp [incVoteFirst] at hx
  | cons a rest ih =>
    by_cases ha : a.id = cpId
    · rw [show (incVoteFirst (a :: rest) cpId now).1 =
          { a with votes := a.votes + 1, updatedAt := now } :: rest from by
          simp [incVoteFirst, ha]] at hx
      rcases List.mem_cons.mp hx with rfl | hx2
      · exact Or.inr ⟨a, List.mem_cons_self a rest, rfl⟩
      · exact Or.inl (List.mem_cons_of_mem a hx2)
    · rw [show (incVoteFirst (a :: rest) cpId now).1 =
          a :: (incVoteFirst rest cpId now).1 from by simp [incVoteFirst, ha]] at hx
      rcases List.mem_cons.mp hx with rfl | hx2
      · exact Or.inl (List.mem_cons_self _ rest)
      · rcases ih hx2 with h3 | ⟨cp, hm, h4⟩
        · exact Or.inl (List.mem_cons_of_mem a h3)
        · exact Or.inr ⟨cp, List.mem_cons_of_mem a hm, h4⟩

theorem voteHandler_invalid (cpId ip : String) (conn : Except Unit DBState) (now : Nat)
    (h : isValidObjectId cpId = false) :
    voteHandler cpId ip conn now = (.invalidIdFormat, conn) := by
  simp [voteHandler, h]

theorem voteHandler_connError (cpId ip : String) (e : Unit) (now : Nat)
    (h : isValidObjectId cpId = true) :
    voteHandler cpId ip (.error e) now = (.serverError, .error e) := by
  simp [voteHandler, h]

theorem voteHandler_dup (st : DBState) (cpId ip : String) (now : Nat) (l : VoteLog)
    (h : isValidObjectId cpId = true)
    (hf : st.voteLogs.find? (voteLogMatches cpId ip (startOfDay now)) = some l) :
    voteHandler cpId ip (.ok st) now = (.alreadyVoted, .ok st) := by
  simp [voteHandler, h, hf]

theorem voteHandler_notFound (st : DBState) (cpId ip : String) (now : Nat)
    (h : isValidObjectId cpId = true)
    (hf : st.voteLogs.find? (voteLogMatches cpId ip (startOfDay now)) = none)
    (hm : ∀ cp ∈ st.cps, cp.id ≠ cpId) :
    voteHandler cpId ip (.ok st) now = (.cpNotFound, .ok st) := by
  have hi := incVoteFirst_of_not_mem st.cps cpId now hm
  simp [voteHandler, h, hf, hi]

theorem voteHandler_success (st : DBState) (cpId ip : String) (now : Nat)
    (h : isValidObjectId cpId = true)
    (hf : st.voteLogs.find? (voteLogMatches cpId ip (startOfDay now)) = none)
    (hm : ∃ cp ∈ st.cps, cp.id = cpId) :
    ∃ pre cp post,
      st.cps = pre ++ cp :: post ∧ (∀ x ∈ pre, x.id ≠ cpId) ∧ cp.id = cpId ∧
      voteHandler cpId ip (.ok st) now =
        (.success (cp.votes + 1),
         .ok { st with
               cps := pre ++ { cp with votes := cp.votes + 1, updatedAt := now } :: post
               voteLogs := st.voteLogs ++ [{ cpId := cpId, voterIp := ip, votedAt := now }] }) := by
  rcases incVoteFirst_of_mem st.cps cpId now hm with ⟨pre, cp, post, heq, hpre, hcp, hrun⟩
  refine ⟨pre, cp, post, heq, hpre, hcp, ?_⟩
  have hf2 : pre.find? (fun x => x.id == cpId) = none := by
    rw [List.find?_eq_none]
    intro x hx
    simp [hpre x hx]
  have hf3 : (pre ++ { cp with votes := cp.votes + 1, updatedAt := now } :: post).find?
      (fun x => x.id == cpId) = some { cp with votes := cp.votes + 1, updatedAt := now } := by
    rw [find?_append_of_left_none _ hf2]
    exact List.find?_cons_of_pos _ (by simp [hcp])
  simp [voteHandler, h, hf, hrun, hf3]

theorem voteHandler_ok_cases (st : DBState) (cpId ip : String) (now : Nat) :
    ((voteHandler cpId ip (.ok st) now).2 = .ok st ∧
      ∀ n, (voteHandler cpId ip (.ok st) now).1 ≠ .success n) ∨
    (isValidObjectId cpId = true ∧
     st.voteLogs.find? (voteLogMatches cpId ip (startOfDay now)) = none ∧
     ∃ pre cp post,
       st.cps = pre ++ cp :: post ∧ (∀ x ∈ pre, x.id ≠ cpId) ∧ cp.id = cpId ∧
       voteHandler cpId ip (.ok st) now =
         (.success (cp.votes + 1),
          .ok { st with
                cps := pre ++ { cp with votes := cp.votes + 1, updatedAt := now } :: post
                voteLogs := st.voteLogs ++ [{ cpId := cpId, voterIp := ip, votedAt := now }] })) := by
  by_cases h : isValidObjectId cpId = true
  · cases hf : st.voteLogs.find? (voteLogMatches cpId ip (startOfDay now)) with
    | some l =>
      left
      rw [voteHandler_dup st cpId ip now l h hf]
      exact ⟨rfl, by simp⟩
    | none =>
      by_cases hm : ∃ cp ∈ st.cps, cp.id = cpId
      · right
        exact ⟨h, hf.symm.trans hf, voteHandler_success st cpId ip now h hf hm⟩
      · left
        push_neg at hm
        rw [voteHandler_notFound st cpId ip now h hf hm]
        exact ⟨rfl, by simp⟩
  · left
    rw [voteHandler_invalid cpId ip _ now (by revert h; cases isValidObjectId cpId <;> simp)]
    exact ⟨rfl, by simp⟩

theorem voteHandler_success_inv (st st2 : DBState) (cpId ip : String) (now : Nat) (n : Int)
    (h : voteHandler cpId ip (.ok st) now = (.success n, .ok st2)) :
    ∃ pre cp post,
      st.cps = pre ++ cp :: post ∧ (∀ x ∈ pre, x.id ≠ cpId) ∧ cp.id = cpId ∧
      n = cp.votes + 1 ∧
      st2.cps = pre ++ { cp with votes := cp.votes + 1, updatedAt := now } :: post ∧
      st2.voteLogs = st.voteLogs ++ [{ cpId := cpId, voterIp := ip, votedAt := now }] ∧
      st2.nextId = st.nextId := by
  rcases voteHandler_ok_cases st cpId ip now with ⟨h1, h2⟩ |
    ⟨hv, hf, pre, cp, post, heq, hpre, hcp, hrun⟩
  · exact absurd (by rw [h]) (h2 n)
  · rw [h] at hrun
    simp only [Prod.mk.injEq, VoteOutcome.success.injEq, Except.ok.injEq] at hrun
    obtain ⟨hn, hst⟩ := hrun
    exact ⟨pre, cp, post, heq, hpre, hcp, hn, by rw [hst], by rw [hst], by rw [hst]⟩

/-! Concrete fixtures used by the witnesses. -/

def sampleId : String := "000000000000000000000000"

def sampleId2 : String := "ffffffffffffffffffffffff"

def sampleCP : Item :=
  { id := sampleId, name := "A", description := "d", imageUrl := "u",
    votes := 3, createdAt := 10, updatedAt := 10 }

def sampleState : DBState := { cps := [sampleCP], voteLogs := [], nextId := 1 }

def sampleLog : VoteLog := { cpId := sampleId, voterIp := "1.2.3.4", votedAt := 50 }

def sampleStateVoted : DBState := { cps := [sampleCP], voteLogs := [sampleLog], nextId := 1 }

def sampleVotedState : DBState :=
  { cps := [{ sampleCP with votes := 4, updatedAt := 100 }],
    voteLogs := [{ cpId := sampleId, voterIp := "1.2.3.4", votedAt := 100 }],
    nextId := 1 }

/-! The claims. -/

/-- Claim C1: for a well-formed itemId, the vote operation fails with
DuplicateVoteError exactly when a VoteLog matches the same itemId and voterIp
with votedAt at or after the local midnight preceding the call; a second
vote from the same IP for the same item on the same calendar day is
rejected, and a vote from the same IP on the following calendar day
succeeds. -/
theorem C1_vote_duplicate_iff_same_day_log (st : DBState) (cpId ip : String) (now : Nat)
    (hid : isValidObjectId cpId = true) :
    ((voteHandler cpId ip (.ok st) now).1 = .alreadyVoted ↔
      ∃ l ∈ st.voteLogs, l.cpId = cpId ∧ l.voterIp = ip ∧ startOfDay now ≤ l.votedAt) ∧
    (∀ st2 n now2, voteHandler cpId ip (.ok st) now = (.success n, .ok st2) →
      dayIndex now2 = dayIndex now →
      (voteHandler cpId ip (.ok st2) now2).1 = .alreadyVoted) ∧
    (∀ st2 n now2, voteHandler cpId ip (.ok st) now = (.success n, .ok st2) →
      dayIndex now2 = dayIndex now + 1 →
      (∀ l ∈ st.voteLogs, l.cpId = cpId → l.voterIp = ip → l.votedAt ≤ now) →
      ∃ m, (voteHandler cpId ip (.ok st2) now2).1 = .success m) := by
  refine ⟨⟨?_, ?_⟩, ?_, ?_⟩
  · intro h
    cases hf : st.voteLogs.find? (voteLogMatches cpId ip (startOfDay now)) with
    | some l =>
      have hl := List.find?_some hf
      have hm := List.mem_of_find?_eq_some hf
      rcases (voteLogMatches_eq_true_iff _ _ _ _).mp hl with ⟨h1, h2, h3⟩
      exact ⟨l, hm, h1, h2, h3⟩
    | none =>
      exfalso
      by_cases hm : ∃ cp ∈ st.cps, cp.id = cpId
      · rcases voteHandler_success st cpId ip now hid hf hm with
          ⟨pre, cp, post, _, _, _, hrun⟩
        rw [hrun] at h
        simp at h
      · push_neg at hm
        rw [voteHandler_notFound st cpId ip now hid hf hm] at h
        simp at h
  · rintro ⟨l, hm, h1, h2, h3⟩
    have hsome : (st.voteLogs.find? (voteLogMatches cpId ip (startOfDay now))).isSome := by
      rw [List.find?_isSome]
      exact ⟨l, hm, (voteLogMatches_eq_true_iff _ _ _ _).mpr ⟨h1, h2, h3⟩⟩
    cases hf : st.voteLogs.find? (voteLogMatches cpId ip (startOfDay now)) with
    | none => rw [hf] at hsome; simp at hsome
    | some l2 => rw [voteHandler_dup st cpId ip now l2 hid hf]
  · intro st2 n now2 h hday
    rcases voteHandler_success_inv st st2 cpId ip now n h with
      ⟨pre, cp, post, _, _, _, _, _, hlogs, _⟩
    have hmatch : voteLogMatches cpId ip (startOfDay now2)
        { cpId := cpId, voterIp := ip, votedAt := now } = true := by
      rw [voteLogMatches_eq_true_iff]
      exact ⟨rfl, rfl, by rw [startOfDay_eq_of_dayIndex_eq hday]; exact startOfDay_le now⟩
    have hsome : (st2.voteLogs.find? (voteLogMatches cpId ip (startOfDay now2))).isSome := by
      rw [List.find?_isSome]
      refine ⟨_, ?_, hmatch⟩
      rw [hlogs]
      exact List.mem_append_right _ (List.mem_singleton.mpr rfl)
    cases hf2 : st2.voteLogs.find? (voteLogMatches cpId ip (startOfDay now2)) with
    | none => rw [hf2] at hsome; simp at hsome
    | some l2 => rw [voteHandler_dup st2 cpId ip now2 l2 hid hf2]
  · intro st2 n now2 h hday hpast
    rcases voteHandler_success_inv st st2 cpId ip now n h with
      ⟨pre, cp, post, hcps, hpre, hcp, hn, hcps2, hlogs, _⟩
    have hnow : now < startOfDay now2 := lt_startOfDay_of_dayIndex_succ hday
    have hnone : st2.voteLogs.find? (voteLogMatches cpId ip (startOfDay now2)) = none := by
      rw [List.find?_eq_none]
      intro l hl hmatch
      rcases (voteLogMatches_eq_true_iff _ _ _ _).mp hmatch with ⟨h1, h2, h3⟩
      have hv : l.votedAt ≤ now := by
        rw [hlogs] at hl
        rcases List.mem_append.mp hl with hl1 | hl2
        · exact hpast l hl1 h1 h2
        · rw [List.mem_singleton.mp hl2]
      omega
    have hm2 : ∃ x ∈ st2.cps, x.id = cpId := by
      refine ⟨{ cp with votes := cp.votes + 1, updatedAt := now }, ?_, hcp⟩
      rw [hcps2]
      exact List.mem_append_right _ (List.mem_cons_self _ _)
    rcases voteHandler_success st2 cpId ip now2 hid hnone hm2 with
      ⟨p2, c2, q2, _, _, _, hrun2⟩
    exact ⟨c2.votes + 1, by rw [hrun2]⟩

/-- Closed instance of C1 at a concrete state holding one same-day log. -/
theorem C1_witness :
    ((voteHandler sampleId "1.2.3.4" (.ok sampleStateVoted) 100).1 = .alreadyVoted ↔
      ∃ l ∈ sampleStateVoted.voteLogs,
        l.cpId = sampleId ∧ l.voterIp = "1.2.3.4" ∧ startOfDay 100 ≤ l.votedAt) ∧
    (∀ st2 n now2,
      voteHandler sampleId "1.2.3.4" (.ok sampleStateVoted) 100 = (.success n, .ok st2) →
      dayIndex now2 = dayIndex 100 →
      (voteHandler sampleId "1.2.3.4" (.ok st2) now2).1 = .alreadyVoted) ∧
    (∀ st2 n now2,
      voteHandler sampleId "1.2.3.4" (.ok sampleStateVoted) 100 = (.success n, .ok st2) →
      dayIndex now2 = dayIndex 100 + 1 →
      (∀ l ∈ sampleStateVoted.voteLogs,
        l.cpId = sampleId → l.voterIp = "1.2.3.4" → l.votedAt ≤ 100) →
      ∃ m, (voteHandler sampleId "1.2.3.4" (.ok st2) now2).1 = .success m) :=
  C1_vote_duplicate_iff_same_day_log sampleStateVoted sampleId "1.2.3.4" 100 (by decide)

/-- Claim C2: a successful vote increments exactly the matched item by 1,
sets its updatedAt to now, appends exactly one vote log for (itemId, ip,
now), and returns the previous vote count plus 1. -/
theorem C2_vote_success_effect (st st2 : DBState) (cpId ip : String) (now : Nat) (n : Int)
    (h : voteHandler cpId ip (.ok st) now = (.success n, .ok st2)) :
    ∃ pre cp post,
      st.cps = pre ++ cp :: post ∧ (∀ x ∈ pre, x.id ≠ cpId) ∧ cp.id = cpId ∧
      st2.cps = pre ++ { cp with votes := cp.votes + 1, updatedAt := now } :: post ∧
      n = cp.votes + 1 ∧
      st2.voteLogs = st.voteLogs ++ [{ cpId := cpId, voterIp := ip, votedAt := now }] := by
  rcases voteHandler_success_inv st st2 cpId ip now n h with
    ⟨pre, cp, post, hcps, hpre, hcp, hn, hcps2, hlogs, _⟩
  exact ⟨pre, cp, post, hcps, hpre, hcp, hcps2, hn, hlogs⟩

/-- Closed instance of C2 at a concrete one-item state. -/
theorem C2_witness :
    ∃ pre cp post,
      sampleState.cps = pre ++ cp :: post ∧ (∀ x ∈ pre, x.id ≠ sampleId) ∧ cp.id = sampleId ∧
      sampleVotedState.cps = pre ++ { cp with votes := cp.votes + 1, updatedAt := 100 } :: post ∧
      (4 : Int) = cp.votes + 1 ∧
      sampleVotedState.voteLogs = sampleState.voteLogs ++
        [{ cpId := sampleId, voterIp := "1.2.3.4", votedAt := 100 }] :=
  C2_vote_success_effect sampleState sampleVotedState sampleId "1.2.3.4" 100 4 (by rfl)

/-- Claim C6: a vote for a well-formed id matching no stored item fails with
NotFoundError (HTTP 404) and changes nothing; the hypothesis that every
stored vote log refers to a stored item holds in every state the API can
reach, since logs are only appended after a matched update. -/
theorem C6_vote_not_found (st : DBState) (cpId ip : String) (now : Nat)
    (hid : isValidObjectId cpId = true)
    (hlogs : ∀ l ∈ st.voteLogs, ∃ cp ∈ st.cps, cp.id = l.cpId)
    (hnone : ∀ cp ∈ st.cps, cp.id ≠ cpId) :
    voteHandler cpId ip (.ok st) now = (.cpNotFound, .ok st) ∧
    voteStatus (voteHandler cpId ip (.ok st) now).1 = 404 := by
  have hf : st.voteLogs.find? (voteLogMatches cpId ip (startOfDay now)) = none := by
    rw [List.find?_eq_none]
    intro l hl hmatch
    rcases (voteLogMatches_eq_true_iff _ _ _ _).mp hmatch with ⟨h1, _, _⟩
    rcases hlogs l hl with ⟨cp, hcpm, hcpid⟩
    exact hnone cp hcpm (hcpid.trans h1)
  have hrun := voteHandler_notFound st cpId ip now hid hf hnone
  exact ⟨hrun, by rw [hrun]; rfl⟩

/-- Closed instance of C6 at a concrete state and an unknown id. -/
theorem C6_witness :
    voteHandler sampleId2 "1.2.3.4" (.ok sampleState) 100 = (.cpNotFound, .ok sampleState) ∧
    voteStatus (voteHandler sampleId2 "1.2.3.4" (.ok sampleState) 100).1 = 404 :=
  C6_vote_not_found sampleState sampleId2 "1.2.3.4" 100 (by decide) (by simp [sampleState])
    (by decide)

/-- Claim C9: whenever the vote operation fails with an invalid id, a
duplicate vote or an unknown id, the database state (both collections) is
returned unchanged. -/
theorem C9_vote_failure_preserves_state (st st2 : DBState) (cpId ip : String) (now : Nat)
    (o : VoteOutcome) (h : voteHandler cpId ip (.ok st) now = (o, .ok st2))
    (hfail : o = .invalidIdFormat ∨ o = .alreadyVoted ∨ o = .cpNotFound) :
    st2 = st := by
  rcases voteHandler_ok_cases st cpId ip now with ⟨h1, _⟩ |
    ⟨_, _, pre, cp, post, _, _, _, hrun⟩
  · rw [h] at h1
    exact Except.ok.inj h1
  · rw [h] at hrun
    rcases hfail with rfl | rfl | rfl <;> simp at hrun

/-- Closed instance of C9 at a duplicate second vote. -/
theorem C9_witness : sampleStateVoted = sampleStateVoted :=
  C9_vote_failure_preserves_state sampleStateVoted sampleStateVoted sampleId "1.2.3.4" 100
    .alreadyVoted (by rfl) (Or.inr (Or.inl rfl))

/-- Claim C3: a valid create returns 201 with an item whose votes is 0,
whose id is the generated 24-character ObjectId (hence non-empty), whose
name is the trimmed input, whose description defaults to the placeholder
when absent, whose timestamps are both now, and whose image reference is the
data URI combining the MIME type and the base64 payload; the item is
appended to the collection. -/
theorem C3_create_success (st : DBState) (name : String) (description : Option String)
    (f : UploadedFile) (now : Nat)
    (hname : jsTrim name ≠ "")
    (hmime : strStartsWith f.mimetype "image/" = true)
    (hsize : f.buffer.length ≤ 5 * 1024 * 1024) :
    ∃ cp st2,
      createHandler (some name) description (some f) (.ok st) now = (.created cp, .ok st2) ∧
      cp.votes = 0 ∧ cp.id = genObjectId st.nextId ∧ cp.id ≠ "" ∧
      cp.name = jsTrim name ∧
      (description = none → cp.description = "暂无描述") ∧
      cp.createdAt = now ∧ cp.updatedAt = now ∧
      cp.imageUrl = "data:" ++ f.mimetype ++ ";base64," ++ base64Encode f.buffer ∧
      st2 = { st with cps := st.cps ++ [cp], nextId := st.nextId + 1 } := by
  have h0 : name ≠ "" := fun h => hname (by rw [h]; rfl)
  refine ⟨newCP name description f st now,
    { st with cps := st.cps ++ [newCP name description f st now], nextId := st.nextId + 1 },
    ?_, rfl, rfl, genObjectId_ne_empty st.nextId, rfl, ?_, rfl, rfl, rfl, rfl⟩
  · simp [createHandler, createBody, hmime, Nat.not_lt.mpr hsize, h0, hname]
  · intro hd
    rw [show (newCP name description f st now).description = descriptionValue description
        from rfl, hd]
    rfl

/-- Closed instance of C3 at a concrete create request. -/
theorem C3_witness :
    ∃ cp st2,
      createHandler (some " B ") none (some { mimetype := "image/png", buffer := [1, 2, 3] })
        (.ok sampleState) 50 = (.created cp, .ok st2) ∧
      cp.votes = 0 ∧ cp.id = genObjectId sampleState.nextId ∧ cp.id ≠ "" ∧
      cp.name = jsTrim " B " ∧
      ((none : Option String) = none → cp.description = "暂无描述") ∧
      cp.createdAt = 50 ∧ cp.updatedAt = 50 ∧
      cp.imageUrl = "data:" ++ "image/png" ++ ";base64," ++ base64Encode [1, 2, 3] ∧
      st2 = { sampleState with
              cps := sampleState.cps ++ [cp]
              nextId := sampleState.nextId + 1 } :=
  C3_create_success sampleState " B " none { mimetype := "image/png", buffer := [1, 2, 3] } 50
    (by decide) (by decide) (by decide)

/-- Claim C5 is refuted on the MIME-type condition: the fileFilter rejection
of a non-image upload is a plain Error that reaches the error-handling
middleware, which answers HTTP 500, not the 400 of a ValidationError (the
route handler's message-sniffing catch never runs).  Nothing is persisted,
as the claim says. -/
theorem C5_file_type_rejection_is_500 :
    (createHandler (some "A") none (some { mimetype := "text/plain", buffer := [0] })
      (.ok sampleState) 5).1 = .fileTypeRejected ∧
    createStatus (createHandler (some "A") none
      (some { mimetype := "text/plain", buffer := [0] }) (.ok sampleState) 5).1 = 500 ∧
    (createHandler (some "A") none (some { mimetype := "text/plain", buffer := [0] })
      (.ok sampleState) 5).2 = .ok sampleState :=
  ⟨rfl, rfl, rfl⟩

/-- Claim C10: the placeholder is substituted exactly for an absent or empty
description, trimming is applied after the substitution, and a whitespace
only description is therefore stored as the empty string. -/
theorem C10_description_placeholder :
    descriptionValue none = "暂无描述" ∧
    descriptionValue (some "") = "暂无描述" ∧
    (∀ s, s ≠ "" → descriptionValue (some s) = jsTrim s) ∧
    descriptionValue (some "   ") = "" := by
  refine ⟨rfl, rfl, ?_, rfl⟩
  intro s hs
  simp [descriptionValue, hs]

/-- Closed instance of the quantified part of C10. -/
theorem C10_witness : descriptionValue (some " x ") = jsTrim " x " :=
  C10_description_placeholder.2.2.1 " x " (by decide)

theorem sortLE_trans (s : String) :
    ∀ a b c : Item, sortLE s a b = true → sortLE s b c = true → sortLE s a c = true := by
  intro a b c
  by_cases e1 : (s == "newest") = true
  · simp only [sortLE, if_pos e1, decide_eq_true_eq]
    omega
  · by_cases e2 : (s == "name") = true
    · simp only [sortLE, if_neg e1, if_pos e2, decide_eq_true_eq]
      exact fun h1 h2 => le_trans h1 h2
    · simp only [sortLE, if_neg e1, if_neg e2, decide_eq_true_eq]
      omega

theorem sortLE_total (s : String) :
    ∀ a b : Item, (sortLE s a b || sortLE s b a) = true := by
  intro a b
  by_cases e1 : (s == "newest") = true
  · simp only [sortLE, if_pos e1, Bool.or_eq_true, decide_eq_true_eq]
    omega
  · by_cases e2 : (s == "name") = true
    · simp only [sortLE, if_neg e1, if_pos e2, Bool.or_eq_true, decide_eq_true_eq]
      exact le_total a.name b.name
    · simp only [sortLE, if_neg e1, if_neg e2, Bool.or_eq_true, decide_eq_true_eq]
      omega

theorem sortLE_other (s : String) (h1 : s ≠ "newest") (h2 : s ≠ "name") :
    sortLE s = sortLE "votes" := by
  have e1 : (s == "newest") = false := by simp [h1]
  have e2 : (s == "name") = false := by simp [h2]
  simp only [sortLE, e1, e2]
  rfl

/-- Claim C4: the list operation always returns the whole stored set (a
permutation, no pagination); sort key votes yields non-increasing votes,
name yields non-decreasing names, newest yields non-increasing createdAt,
and an absent or unrecognized key gives exactly the votes ordering. -/
theorem C4_list_sorting (st : DBState) (sortQ : Option String) (s : String)
    (h1 : s ≠ "newest") (h2 : s ≠ "name") :
    (∃ out, listHandler sortQ (.ok st) = .ok out ∧ out.Perm st.cps) ∧
    (∀ out, listHandler (some "votes") (.ok st) = .ok out →
      out.Pairwise fun a b => b.votes ≤ a.votes) ∧
    (∀ out, listHandler (some "name") (.ok st) = .ok out →
      out.Pairwise fun a b => a.name ≤ b.name) ∧
    (∀ out, listHandler (some "newest") (.ok st) = .ok out →
      out.Pairwise fun a b => b.createdAt ≤ a.createdAt) ∧
    listHandler (some s) (.ok st) = listHandler (some "votes") (.ok st) ∧
    listHandler none (.ok st) = listHandler (some "votes") (.ok st) := by
  refine ⟨⟨st.cps.mergeSort (sortLE (sortQ.getD "votes")), rfl,
      List.mergeSort_perm st.cps (sortLE (sortQ.getD "votes"))⟩, ?_, ?_, ?_, ?_, ?_⟩
  · intro out h
    have hout : out = st.cps.mergeSort (sortLE "votes") := (ListOutcome.ok.inj h).symm
    rw [hout]
    have hs := List.sorted_mergeSort (sortLE_trans "votes") (sortLE_total "votes") st.cps
    refine hs.imp ?_
    intro a b hab
    have : (sortLE "votes") a b = true := hab
    simpa [sortLE] using this
  · intro out h
    have hout : out = st.cps.mergeSort (sortLE "name") := (ListOutcome.ok.inj h).symm
    rw [hout]
    have hs := List.sorted_mergeSort (sortLE_trans "name") (sortLE_total "name") st.cps
    refine hs.imp ?_
    intro a b hab
    have : (sortLE "name") a b = true := hab
    simpa [sortLE] using this
  · intro out h
    have hout : out = st.cps.mergeSort (sortLE "newest") := (ListOutcome.ok.inj h).symm
    rw [hout]
    have hs := List.sorted_mergeSort (sortLE_trans "newest") (sortLE_total "newest") st.cps
    refine hs.imp ?_
    intro a b hab
    have : (sortLE "newest") a b = true := hab
    simpa [sortLE] using this
  · show ListOutcome.ok (st.cps.mergeSort (sortLE s)) =
      ListOutcome.ok (st.cps.mergeSort (sortLE "votes"))
    rw [sortLE_other s h1 h2]
  · rfl

/-- Closed instance of C4 at a concrete state and the unrecognized key
junk. -/
theorem C4_witness :
    (∃ out, listHandler (some "junk") (.ok sampleState) = .ok out ∧
      out.Perm sampleState.cps) ∧
    (∀ out, listHandler (some "votes") (.ok sampleState) = .ok out →
      out.Pairwise fun a b => b.votes ≤ a.votes) ∧
    (∀ out, listHandler (some "name") (.ok sampleState) = .ok out →
      out.Pairwise fun a b => a.name ≤ b.name) ∧
    (∀ out, listHandler (some "newest") (.ok sampleState) = .ok out →
      out.Pairwise fun a b => b.createdAt ≤ a.createdAt) ∧
    listHandler (some "junk") (.ok sampleState) = listHandler (some "votes") (.ok sampleState) ∧
    listHandler none (.ok sampleState) = listHandler (some "votes") (.ok sampleState) :=
  C4_list_sorting sampleState (some "junk") "junk" (by decide) (by decide)

theorem createHandler_cases (name description : Option String) (file : Option UploadedFile)
    (conn : Except Unit DBState) (now : Nat) :
    ((createHandler name description file conn now).2 = conn ∧
      ∀ cp, (createHandler name description file conn now).1 ≠ .created cp) ∨
    ∃ st s f, name = some s ∧ file = some f ∧ conn = .ok st ∧
      createHandler name description file conn now =
        (.created (newCP s description f st now),
         .ok { st with
               cps := st.cps ++ [newCP s description f st now]
               nextId := st.nextId + 1 }) := by
  cases file with
  | none =>
    cases name with
    | none => exact Or.inl ⟨by simp [createHandler, createBody], by simp [createHandler, createBody]⟩
    | some s =>
      by_cases hs : (s == "" || jsTrim s == "") = true
      · exact Or.inl ⟨by simp [createHandler, createBody, hs],
          by simp [createHandler, createBody, hs]⟩
      · exact Or.inl ⟨by simp [createHandler, createBody, hs],
          by simp [createHandler, createBody, hs]⟩
  | some f =>
    by_cases hm : strStartsWith f.mimetype "image/" = false
    · exact Or.inl ⟨by simp [createHandler, hm], by simp [createHandler, hm]⟩
    · by_cases hz : 5 * 1024 * 1024 < f.buffer.length
      · exact Or.inl ⟨by simp [createHandler, hm, hz], by simp [createHandler, hm, hz]⟩
      · cases name with
        | none => exact Or.inl ⟨by simp [createHandler, createBody, hm, hz],
            by simp [createHandler, createBody, hm, hz]⟩
        | some s =>
          by_cases hs : (s == "" || jsTrim s == "") = true
          · exact Or.inl ⟨by simp [createHandler, createBody, hm, hz, hs],
              by simp [createHandler, createBody, hm, hz, hs]⟩
          · cases conn with
            | error e => exact Or.inl ⟨by simp [createHandler, createBody, hm, hz, hs],
                by simp [createHandler, createBody, hm, hz, hs]⟩
            | ok st =>
              exact Or.inr ⟨st, s, f, rfl, rfl, rfl,
                by simp [createHandler, createBody, hm, hz, hs]⟩

theorem applyOp_error (op : Op) (e : Unit) (now : Nat) :
    applyOp op (.error e) now = .error e := by
  cases op with
  | health => rfl
  | listCps q => rfl
  | getCp i => rfl
  | create name description file =>
    show (createHandler name description file (.error e) now).2 = .error e
    rcases createHandler_cases name description file (.error e) now with ⟨hl, _⟩ |
      ⟨st, s, f, _, _, hconn, _⟩
    · exact hl
    · simp at hconn
  | vote cpId ip =>
    show (voteHandler cpId ip (.error e) now).2 = .error e
    by_cases h : isValidObjectId cpId = true
    · rw [voteHandler_connError cpId ip e now h]
    · rw [voteHandler_invalid cpId ip _ now (by revert h; cases isValidObjectId cpId <;> simp)]

theorem applyOp_mem_cases (op : Op) (st st2 : DBState) (now : Nat)
    (happ : applyOp op (.ok st) now = .ok st2) :
    ∀ x ∈ st2.cps, x ∈ st.cps ∨ x.votes = 0 ∨ ∃ cp ∈ st.cps, x.votes = cp.votes + 1 := by
  intro x hx
  cases op with
  | health =>
    obtain rfl := Except.ok.inj happ
    exact Or.inl hx
  | listCps q =>
    obtain rfl := Except.ok.inj happ
    exact Or.inl hx
  | getCp i =>
    obtain rfl := Except.ok.inj happ
    exact Or.inl hx
  | create name description file =>
    rcases createHandler_cases name description file (.ok st) now with ⟨hl, _⟩ |
      ⟨st0, s, f0, _, _, hconn2, hrun⟩
    · have h4 : (Except.ok st : Except Unit DBState) = Except.ok st2 := by
        rw [← hl]; exact happ
      obtain rfl := Except.ok.inj h4
      exact Or.inl hx
    · have heq0 : st0 = st := Except.ok.inj hconn2.symm
      rw [heq0] at hrun
      have h4 : (Except.ok st2 : Except Unit DBState) =
          Except.ok { st with
            cps := st.cps ++ [newCP s description f0 st now]
            nextId := st.nextId + 1 } := by
        rw [← happ]
        show (createHandler name description file (.ok st) now).2 = _
        rw [hrun]
      obtain h5 := Except.ok.inj h4
      rw [h5] at hx
      rcases List.mem_append.mp hx with hx1 | hx2
      · exact Or.inl hx1
      · rw [List.mem_singleton.mp hx2]
        exact Or.inr (Or.inl rfl)
  | vote cpId ip =>
    rcases voteHandler_ok_cases st cpId ip now with ⟨h1, _⟩ |
      ⟨_, _, pre, cp, post, hcps, hpre, hcp, hrun⟩
    · have h4 : (Except.ok st : Except Unit DBState) = Except.ok st2 := by
        rw [← h1]; exact happ
      obtain rfl := Except.ok.inj h4
      exact Or.inl hx
    · have h4 : (Except.ok st2 : Except Unit DBState) =
          Except.ok { st with
            cps := pre ++ { cp with votes := cp.votes + 1, updatedAt := now } :: post
            voteLogs := st.voteLogs ++ [{ cpId := cpId, voterIp := ip, votedAt := now }] } := by
        rw [← happ]
        show (voteHandler cpId ip (.ok st) now).2 = _
        rw [hrun]
      obtain h5 := Except.ok.inj h4
      rw [h5] at hx
      rcases List.mem_append.mp hx with hx1 | hx2
      · exact Or.inl (by rw [hcps]; exact List.mem_append_left _ hx1)
      · rcases List.mem_cons.mp hx2 with rfl | hx3
        · refine Or.inr (Or.inr ⟨cp, ?_, rfl⟩)
          rw [hcps]
          exact List.mem_append_right _ (List.mem_cons_self _ _)
        · exact Or.inl (by rw [hcps]; exact List.mem_append_right _ (List.mem_cons_of_mem _ hx3))

/-- Every vote log refers to a stored item: items are never removed and a
log is only appended after a matched update, so the hypothesis of the
not-found claim holds in every state the API can reach. -/
theorem applyOp_log_integrity (op : Op) (st st2 : DBState) (now : Nat)
    (happ : applyOp op (.ok st) now = .ok st2)
    (hinv : ∀ l ∈ st.voteLogs, ∃ cp ∈ st.cps, cp.id = l.cpId) :
    ∀ l ∈ st2.voteLogs, ∃ cp ∈ st2.cps, cp.id = l.cpId := by
  cases op with
  | health =>
    obtain rfl := Except.ok.inj happ
    exact hinv
  | listCps q =>
    obtain rfl := Except.ok.inj happ
    exact hinv
  | getCp i =>
    obtain rfl := Except.ok.inj happ
    exact hinv
  | create name description file =>
    rcases createHandler_cases name description file (.ok st) now with ⟨hl, _⟩ |
      ⟨st0, s, f0, _, _, hconn2, hrun⟩
    · have h4 : (Except.ok st : Except Unit DBState) = Except.ok st2 := by
        rw [← hl]; exact happ
      obtain rfl := Except.ok.inj h4
      exact hinv
    · have heq0 : st0 = st := Except.ok.inj hconn2.symm
      rw [heq0] at hrun
      have h4 : (Except.ok st2 : Except Unit DBState) =
          Except.ok { st with
            cps := st.cps ++ [newCP s description f0 st now]
            nextId := st.nextId + 1 } := by
        rw [← happ]
        show (createHandler name description file (.ok st) now).2 = _
        rw [hrun]
      obtain h5 := Except.ok.inj h4
      rw [h5]
      intro l hl
      rcases hinv l hl with ⟨cp, hm, hid⟩
      exact ⟨cp, List.mem_append_left _ hm, hid⟩
  | vote cpId ip =>
    rcases voteHandler_ok_cases st cpId ip now with ⟨h1, _⟩ |
      ⟨_, _, pre, cp, post, hcps, hpre, hcp, hrun⟩
    · have h4 : (Except.ok st : Except Unit DBState) = Except.ok st2 := by
        rw [← h1]; exact happ
      obtain rfl := Except.ok.inj h4
      exact hinv
    · have h4 : (Except.ok st2 : Except Unit DBState) =
          Except.ok { st with
            cps := pre ++ { cp with votes := cp.votes + 1, updatedAt := now } :: post
            voteLogs := st.voteLogs ++ [{ cpId := cpId, voterIp := ip, votedAt := now }] } := by
        rw [← happ]
        show (voteHandler cpId ip (.ok st) now).2 = _
        rw [hrun]
      obtain h5 := Except.ok.inj h4
      rw [h5]
      intro l hl
      rcases List.mem_append.mp hl with hl1 | hl2
      · rcases hinv l hl1 with ⟨x, hm, hid⟩
        rw [hcps] at hm
        rcases List.mem_append.mp hm with hm1 | hm2
        · exact ⟨x, List.mem_append_left _ hm1, hid⟩
        · rcases List.mem_cons.mp hm2 with rfl | hm3
          · refine ⟨{ x with votes := x.votes + 1, updatedAt := now }, ?_, hid⟩
            exact List.mem_append_right _ (List.mem_cons_self _ _)
          · exact ⟨x, List.mem_append_right _ (List.mem_cons_of_mem _ hm3), hid⟩
      · rw [List.mem_singleton.mp hl2]
        refine ⟨{ cp with votes := cp.votes + 1, updatedAt := now }, ?_, hcp⟩
        exact List.mem_append_right _ (List.mem_cons_self _ _)

/-- The per-item invariant of the data model: every stored item has a
non-negative vote counter (vacuous on a failed connection). -/
def votesNonneg : Except Unit DBState → Prop
  | .error _ => True
  | .ok st => ∀ cp ∈ st.cps, 0 ≤ cp.votes

/-- Claim C7: create initializes votes to 0; vote is the only operation
that modifies an existing vote counter and changes it only by plus one (any
item in the new state was already stored, is a fresh item with zero votes,
or has some stored item's votes plus 1); hence every operation preserves
the invariant that all vote counters are non-negative. -/
theorem C7_votes_invariant (op : Op) (conn : Except Unit DBState) (now : Nat) :
    (∀ name description file cp c2,
      createHandler name description file conn now = (.created cp, c2) → cp.votes = 0) ∧
    (∀ st st2, conn = .ok st → applyOp op conn now = .ok st2 →
      ∀ x ∈ st2.cps, x ∈ st.cps ∨ x.votes = 0 ∨ ∃ cp ∈ st.cps, x.votes = cp.votes + 1) ∧
    (votesNonneg conn → votesNonneg (applyOp op conn now)) := by
  refine ⟨?_, ?_, ?_⟩
  · intro name description file cp c2 h
    rcases createHandler_cases name description file conn now with ⟨_, h2⟩ |
      ⟨st, s, f, _, _, _, hrun⟩
    · exact absurd (by rw [h]) (h2 cp)
    · rw [h] at hrun
      simp only [Prod.mk.injEq, CreateOutcome.created.injEq] at hrun
      rw [hrun.1]
      rfl
  · intro st st2 hconn happ
    subst hconn
    exact applyOp_mem_cases op st st2 now happ
  · intro hinv
    cases hc : conn with
    | error e =>
      rw [applyOp_error op e now]
      trivial
    | ok st =>
      cases happ : applyOp op (.ok st) now with
      | error e2 => trivial
      | ok st2 =>
        intro x hx
        rw [hc] at hinv
        rcases applyOp_mem_cases op st st2 now happ x hx with hx1 | hx2 | ⟨cp, hm, hx3⟩
        · exact hinv x hx1
        · omega
        · have := hinv cp hm
          omega

/-- Closed instance of C7: the invariant after a concrete vote. -/
theorem C7_witness :
    votesNonneg (applyOp (.vote sampleId "1.2.3.4") (.ok sampleState) 100) :=
  (C7_votes_invariant (.vote sampleId "1.2.3.4") (.ok sampleState) 100).2.2
    (by intro cp hm; rw [List.mem_singleton.mp hm]; decide)

/-- Claim C8: a cached connection is returned as-is by every later call
(independently of how a fresh attempt would fare), a failed first
connection propagates the error, and with a failed connection every
endpoint answers HTTP 500 instead of crashing. -/
theorem C8_connect_singleton_and_propagation :
    (∀ (d : Nat) (fresh : Except Unit Nat), connectToDatabase (some d) fresh = .ok (d, some d)) ∧
    (∀ e : Unit, connectToDatabase none (.error e) = .error e) ∧
    healthStatus (healthHandler (.error ())) = 500 ∧
    (∀ sortQ, listStatus (listHandler sortQ (.error ())) = 500) ∧
    (∀ cpId ip now, isValidObjectId cpId = true →
      voteStatus (voteHandler cpId ip (.error ()) now).1 = 500) ∧
    (∀ s description f now, jsTrim s ≠ "" → strStartsWith f.mimetype "image/" = true →
      f.buffer.length ≤ 5 * 1024 * 1024 →
      createStatus (createHandler (some s) description (some f) (.error ()) now).1 = 500) ∧
    (∀ cpId, isValidObjectId cpId = true → getStatus (getHandler cpId (.error ())) = 500) := by
  refine ⟨fun d fresh => rfl, fun e => rfl, rfl, fun sortQ => rfl, ?_, ?_, ?_⟩
  · intro cpId ip now h
    rw [voteHandler_connError cpId ip () now h]
    rfl
  · intro s description f now hname hmime hsize
    have h0 : s ≠ "" := fun h => hname (by rw [h]; rfl)
    simp [createHandler, createBody, createStatus, hmime, Nat.not_lt.mpr hsize, h0, hname]
  · intro cpId h
    simp [getHandler, h, getStatus]

/-- Closed instance of C8 at concrete handles and requests. -/
theorem C8_witness :
    connectToDatabase (some 7) (.error ()) = .ok (7, some 7) ∧
    connectToDatabase none (.error ()) = .error () ∧
    voteStatus (voteHandler sampleId "1.2.3.4" (.error ()) 100).1 = 500 ∧
    createStatus (createHandler (some "A") none
      (some { mimetype := "image/png", buffer := [1] }) (.error ()) 5).1 = 500 ∧
    getStatus (getHandler sampleId (.error ())) = 500 :=
  ⟨C8_connect_singleton_and_propagation.1 7 (.error ()),
   C8_connect_singleton_and_propagation.2.1 (),
   C8_connect_singleton_and_propagation.2.2.2.2.1 sampleId "1.2.3.4" 100 (by decide),
   C8_connect_singleton_and_propagation.2.2.2.2.2.1 "A" none
     { mimetype := "image/png", buffer := [1] } 5 (by decide) (by decide) (by decide),
   C8_connect_singleton_and_propagation.2.2.2.2.2.2 sampleId (by decide)⟩

end CPVote
